/-
Verification of the space-transit preprocessing pipeline (src/preprocessing.py).

The pandas/geopandas dataframes are shallowly embedded:
  * a cell value is `Val := Option ℚ` where `none` stands for an undefined
    entry (pandas NaN, and the undefined result of a division by zero);
  * a row is an association list from column names to values, a table is a
    list of rows (pandas keeps column order, association lists preserve it);
  * column assignment `df[c] = ...` mutates the dataframe in place, so each
    cleaner is embedded as a state-passing function returning the final state
    of its input table together with the selected view it returns;
  * fallible operations (column lookup, pandas `KeyError`) return
    `Except String`;
  * geometric primitives (reprojection, centroid, buffer, area, intersects)
    are external library collaborators and enter as function parameters.
-/
import Mathlib

set_option maxHeartbeats 1000000

/-- A dataframe cell: `none` models pandas NaN / an undefined entry. -/
abbrev Val := Option ℚ

/-- Elementwise addition; an undefined operand makes the result undefined. -/
def vadd : Val → Val → Val
  | some a, some b => some (a + b)
  | _, _ => none

/-- Elementwise subtraction; an undefined operand makes the result undefined. -/
def vsub : Val → Val → Val
  | some a, some b => some (a - b)
  | _, _ => none

/-- Elementwise multiplication; an undefined operand makes the result undefined. -/
def vmul : Val → Val → Val
  | some a, some b => some (a * b)
  | _, _ => none

/-- Elementwise division.  A zero denominator yields the undefined value,
mirroring the pandas behaviour that a ratio with a zero denominator is not an
error but an undefined entry (NaN/inf) of the result column. -/
def vdiv : Val → Val → Val
  | some a, some b => if b = 0 then none else some (a / b)
  | _, _ => none

/-- Row sum in the style of pandas `.sum(axis=1)`: undefined entries are
skipped (`skipna=True`), an empty selection sums to `0`. -/
def sumVals (vs : List Val) : Val :=
  some ((vs.filterMap id).sum)

/-- A dataframe row: column names with their values, in column order. -/
abbrev Row := List (String × Val)

/-- A dataframe: a list of rows sharing the same columns. -/
abbrev Table := List Row

/-- Column lookup, `df[c]` on one row: a missing column is a pandas
`KeyError`, embedded as `Except.error`. -/
def getVal (r : Row) (c : String) : Except String Val :=
  match r.find? (fun p => p.1 == c) with
  | some p => Except.ok p.2
  | none => Except.error c

/-- Column lookup defaulting to the undefined value, used to state
properties of rows whose columns are already known to exist. -/
def getValD (r : Row) (c : String) : Val :=
  match r.find? (fun p => p.1 == c) with
  | some p => p.2
  | none => none

/-- Column assignment `df[c] = v` on one row: replaces the value of an
existing column in place, otherwise appends the new column at the end,
exactly as pandas does. -/
def setVal (r : Row) (c : String) (v : Val) : Row :=
  match r with
  | [] => [(c, v)]
  | p :: rest => if p.1 == c then (c, v) :: rest else p :: setVal rest c v

/-- `df.drop(columns=[c])` on one row. -/
def dropColumn (r : Row) (c : String) : Row :=
  r.filter (fun p => p.1 != c)

/-- The column names of a table (pandas `df.columns`; rows are uniform, so
the first row carries them). -/
def tableColumns (t : Table) : List String :=
  match t with
  | [] => []
  | r :: _ => r.map Prod.fst

/-- Effectful map over the rows of a table (the embedding of a vectorised
pandas column operation applied row by row). -/
def mapME (f : α → Except String β) : List α → Except String (List β)
  | [] => Except.ok []
  | a :: as =>
    match f a with
    | Except.error e => Except.error e
    | Except.ok b =>
      match mapME f as with
      | Except.error e => Except.error e
      | Except.ok bs => Except.ok (b :: bs)

/-- Column selection `df[[c₁, …, cₙ]]` on one row: a missing column is a
`KeyError`. -/
def selectCols (r : Row) (cols : List String) : Except String Row :=
  mapME (fun c => Except.map (fun v => (c, v)) (getVal r c)) cols

/-- `Except.isOk` as a plain Bool. -/
def exIsOk : Except String α → Bool
  | Except.ok _ => true
  | Except.error _ => false

/-- Decimal value of a digit list; a non-digit character makes the parse
fail. -/
def digitsVal (cs : List Char) : Option Nat :=
  cs.foldl
    (fun acc c =>
      match acc with
      | none => none
      | some n => if c.isDigit then some (n * 10 + (c.toNat - 48)) else none)
    (some 0)

/-- `locale.atoi`: locale-aware string-to-integer parsing that accepts
thousands separators, so that `atoi "25,000" = 25000`.  The extraction
patterns used here only ever produce non-empty unsigned digit-and-comma
strings; other input (on which the Python function raises) defaults to
`0`. -/
def atoi (s : String) : Int :=
  Int.ofNat ((digitsVal (s.data.filter (fun c => c ≠ ','))).getD 0)

/-- `re.findall` for the pattern of two consecutive digits on a character
list: leftmost, non-overlapping matches. -/
def twoDigitScan : List Char → List String
  | [] => []
  | [_] => []
  | c1 :: c2 :: rest =>
    if c1.isDigit && c2.isDigit then String.mk [c1, c2] :: twoDigitScan rest
    else twoDigitScan (c2 :: rest)

/-- The extraction pattern of two consecutive digits (the `'\d\d'` regex of
the source), as a string-to-matches function. -/
def twoDigitMatches (s : String) : List String :=
  twoDigitScan s.data

/-- Is the character part of a thousands-separated number? -/
def isNumChar (c : Char) : Bool :=
  c.isDigit || c == ','

/-- Modelled from the spec: the poverty-bin extraction pattern
(`'\d.*?\d\,\d+'` applied by the external regex collaborator) pulls
numbers with embedded thousands separators, e.g. `"25,000"`, out of a
column name.  Embedded as: the maximal runs of digits-and-commas that
contain a comma.  Faithful for the `"$a,bcd to $e,fgh_income"`-shaped bin
labels this dataset uses. -/
def commaRunScan (acc : List Char) : List Char → List String
  | [] => if acc.contains ',' then [(acc.reverse).asString] else []
  | c :: rest =>
    if isNumChar c then commaRunScan (c :: acc) rest
    else
      (if acc.contains ',' then [(acc.reverse).asString] else []) ++
        commaRunScan [] rest

/-- Modelled from the spec: see `commaRunScan`. -/
def commaRunMatches (s : String) : List String :=
  commaRunScan [] s.data

/-- `find_rel_cols` (src/preprocessing.py:170-189): collect the column
names containing at least one extracted number `n` with
`min_val ≤ n < max_val` into a set.  The regex engine applied to the
pattern string is the external collaborator `extract`. -/
def find_rel_cols (cols : List String) (min_val max_val : Int)
    (extract : String → List String) : Finset String :=
  cols.foldl
    (fun s col =>
      (extract col).foldl
        (fun s2 num =>
          if atoi num ≥ min_val ∧ atoi num < max_val then insert col s2 else s2)
        s)
    ∅

/-- Row step of `get_info_pop` line `pop_df['total_pop'] =
pop_df['Total_population']`. -/
def popAddTotal (r : Row) : Except String Row := do
  let v ← getVal r "Total_population"
  pure (setVal r "total_pop" v)

/-- `df[sel].sum(axis=1)` on one row: sum of the values of the columns of
`cols` selected by `sel` (pandas skips undefined entries). -/
def sumSel (r : Row) (cols : List String) (sel : Finset String) :
    Except String Val := do
  let vs ← mapME (fun c => getVal r c) (cols.filter (fun c => c ∈ sel))
  pure (sumVals vs)

/-- Row step of `get_info_pop` lines `pop_df['total_working_age'] =
pop_df[working_age_cols].sum(axis=1)` and `pop_df['pct_working_age'] =
pop_df['total_working_age'] / pop_df['total_pop']`. -/
def popAddPct (cols : List String) (sel : Finset String) (r : Row) :
    Except String Row := do
  let s ← sumSel r cols sel
  let r1 := setVal r "total_working_age" s
  let twa ← getVal r1 "total_working_age"
  let tp ← getVal r1 "total_pop"
  pure (setVal r1 "pct_working_age" (vdiv twa tp))

/-- `get_info_pop` (src/preprocessing.py:21-33).  Returns the final state of
the caller's table (column assignment mutates it in place) together with the
view `pop_df[['GEOID', 'total_pop', 'pct_working_age']]` the function
returns. -/
def get_info_pop (t : Table) : Except String (Table × Table) := do
  let t1 ← mapME popAddTotal t
  let working_age_cols := find_rel_cols (tableColumns t1) 15 65 twoDigitMatches
  let t2 ← mapME (popAddPct (tableColumns t1) working_age_cols) t1
  let sel ← mapME (fun r => selectCols r ["GEOID", "total_pop", "pct_working_age"]) t2
  pure (t2, sel)

/-- Row step of `get_info_poverty` line `income_df['total_hh'] =
income_df['Total_income']`. -/
def povAddTotal (r : Row) : Except String Row := do
  let v ← getVal r "Total_income"
  pure (setVal r "total_hh" v)

/-- Row step of `get_info_poverty` line `income_df['pct_hh_pov'] =
income_df[poverty_cols].sum(axis=1) / income_df['Total_income']`. -/
def povAddPct (cols : List String) (sel : Finset String) (r : Row) :
    Except String Row := do
  let s ← sumSel r cols sel
  let tot ← getVal r "Total_income"
  pure (setVal r "pct_hh_pov" (vdiv s tot))

/-- `get_info_poverty` (src/preprocessing.py:36-51): poverty bins are the
income columns embedding a thousands-separated number below 25000. -/
def get_info_poverty (t : Table) : Except String (Table × Table) := do
  let t1 ← mapME povAddTotal t
  let poverty_cols := find_rel_cols (tableColumns t1) 0 25000 commaRunMatches
  let t2 ← mapME (povAddPct (tableColumns t1) poverty_cols) t1
  let sel ← mapME (fun r => selectCols r ["GEOID", "total_hh", "pct_hh_pov"]) t2
  pure (t2, sel)

/-- Row step of `get_race_info` (src/preprocessing.py:63-66): the three
column assignments in source order; `pct_other_race` is the complement
`1.0 - (pct_white + pct_black)` read back from the freshly set columns. -/
def raceRow (r : Row) : Except String Row := do
  let w ← getVal r "White alone_race"
  let tot ← getVal r "Total_race"
  let r1 := setVal r "pct_white" (vdiv w tot)
  let b ← getVal r1 "Black or African American alone_race"
  let tot2 ← getVal r1 "Total_race"
  let r2 := setVal r1 "pct_black" (vdiv b tot2)
  let pw ← getVal r2 "pct_white"
  let pb ← getVal r2 "pct_black"
  pure (setVal r2 "pct_other_race" (vsub (some 1) (vadd pw pb)))

/-- `get_race_info` (src/preprocessing.py:54-67).  Returns the final state
of the caller's table and the returned view
`race_df[['GEOID', 'pct_white', 'pct_black', 'pct_other_race']]`. -/
def get_race_info (t : Table) : Except String (Table × Table) := do
  let t1 ← mapME raceRow t
  let sel ← mapME
    (fun r => selectCols r ["GEOID", "pct_white", "pct_black", "pct_other_race"]) t1
  pure (t1, sel)

/-- The fixed commute-time bin columns of `get_commute_info`
(src/preprocessing.py:85-93). -/
def time_cols : List String :=
  ["Less than 10 minutes_commute_time",
   "10 to 14 minutes_commute_time",
   "15 to 19 minutes_commute_time",
   "20 to 24 minutes_commute_time",
   "25 to 29 minutes_commute_time",
   "30 to 34 minutes_commute_time",
   "35 to 44 minutes_commute_time",
   "45 to 59 minutes_commute_time",
   "60 or more minutes_commute_time"]

/-- The fixed (mode column, percentage column) pairs of `get_commute_info`
(src/preprocessing.py:99-104). -/
def mode_cols : List (String × String) :=
  [("Car, truck, or van_commute_time", "pct_car"),
   ("Walked_commute_time", "pct_walk"),
   ("Taxicab, motorcycle, bicycle, or other means_commute_time",
      "pct_other_transit_mode"),
   ("Public transportation (excluding taxicab)_commute_time", "pct_transit")]

/-- Row step of `get_commute_info` lines 94-96: `commute_df[time_cols]`
requires every bin column (pandas `KeyError` otherwise), then
`pct_long_commute` is the sum over the bins selected by `find_rel_cols`
divided by the total-commuters column. -/
def commuteLongRow (longSel : Finset String) (r : Row) : Except String Row := do
  let _ ← mapME (fun c => getVal r c) time_cols
  let vs ← mapME (fun c => getVal r c) (time_cols.filter (fun c => c ∈ longSel))
  let tot ← getVal r "Total_commute_time"
  pure (setVal r "pct_long_commute" (vdiv (sumVals vs) tot))

/-- Row step of `get_commute_info` lines 105-108: each mode column divided
by the total-commuters column, in source order. -/
def commuteModeRow (r : Row) : Except String Row :=
  mode_cols.foldlM
    (fun r2 p => do
      let v ← getVal r2 p.1
      let tot ← getVal r2 "Total_commute_time"
      pure (setVal r2 p.2 (vdiv v tot)))
    r

/-- `get_commute_info` (src/preprocessing.py:70-109): the long-commute bins
are those of `time_cols` embedding a two-digit number in [45, 1000). -/
def get_commute_info (t : Table) : Except String (Table × Table) := do
  let longSel := find_rel_cols time_cols 45 1000 twoDigitMatches
  let t1 ← mapME (commuteLongRow longSel) t
  let t2 ← mapME commuteModeRow t1
  let sel ← mapME
    (fun r => selectCols r
      ["GEOID", "pct_long_commute", "pct_car", "pct_walk",
       "pct_other_transit_mode", "pct_transit"]) t2
  pure (t2, sel)

/-- `get_employment_info` (src/preprocessing.py:112-122): pure column
subsetting, the input table is not mutated. -/
def get_employment_info (t : Table) : Except String (Table × Table) := do
  let sel ← mapME (fun r => selectCols r ["GEOID", "Total_employment"]) t
  pure (t, sel)

/-- `get_vehicle_info` (src/preprocessing.py:125-135): pure column
subsetting, the input table is not mutated. -/
def get_vehicle_info (t : Table) : Except String (Table × Table) := do
  let sel ← mapME (fun r => selectCols r ["GEOID", "Total_num_vehicles"]) t
  pure (t, sel)

/-- Row step of `find_pct_hisp` (src/preprocessing.py:147-148). -/
def hispRow (r : Row) : Except String Row := do
  let v ← getVal r "Hispanic or Latino_hispanic_res"
  let tot ← getVal r "Total_hispanic_res"
  pure (setVal r "pct_hisp" (vdiv v tot))

/-- `find_pct_hisp` (src/preprocessing.py:138-149). -/
def find_pct_hisp (t : Table) : Except String (Table × Table) := do
  let t1 ← mapME hispRow t
  let sel ← mapME (fun r => selectCols r ["GEOID", "pct_hisp"]) t1
  pure (t1, sel)

/-- Row step of `find_per_pop` (src/preprocessing.py:152-167):
`df[new_col] = df[col1] / df[col2]` then `df.drop(columns=[col1])`. -/
def perPopRow (col1 col2 new_col : String) (r : Row) : Except String Row := do
  let v1 ← getVal r col1
  let v2 ← getVal r col2
  pure (dropColumn (setVal r new_col (vdiv v1 v2)) col1)

/-- `find_per_pop` (src/preprocessing.py:152-167). -/
def find_per_pop (t : Table) (col1 col2 new_col : String) :
    Except String Table :=
  mapME (perPopRow col1 col2 new_col) t

/-- The GEOID key of a row as a defined rational, if the row has a GEOID
column holding a defined value (`none` models a missing column or a NaN
key, neither of which survives a pandas inner merge on GEOID). -/
def rowKeyQ (r : Row) : Option ℚ :=
  match r.find? (fun p => p.1 == "GEOID") with
  | some p =>
    match p.2 with
    | some q => some q
    | none => none
  | none => none

/-- Do two rows agree on a defined GEOID key? -/
def keyEq (rx ry : Row) : Bool :=
  match rowKeyQ rx, rowKeyQ ry with
  | some a, some b => decide (a = b)
  | _, _ => false

/-- `pd.merge(x, y, on=['GEOID'])` (inner join, the pandas default): each
left row is paired with every right row carrying the same defined GEOID
key; the right row contributes its non-key columns.  The cleaners give the
two operands disjoint non-key column sets, so no suffixing is modelled. -/
def mergeTables (x y : Table) : Table :=
  x.flatMap
    (fun rx =>
      ((y.filter (fun ry => keyEq rx ry)).map
        (fun ry => rx ++ dropColumn ry "GEOID")))

/-- The set of defined GEOID keys of a table. -/
def keysOf (t : Table) : Finset ℚ :=
  t.foldr
    (fun r acc =>
      match rowKeyQ r with
      | some q => insert q acc
      | none => acc)
    ∅

/-- The fixed source-file-to-cleaner mapping `SPEC_CLEANING_FNS`
(src/preprocessing.py:192-200), in dict-literal (= iteration) order. -/
def SPEC_CLEANING_FNS : List (String × (Table → Except String (Table × Table))) :=
  [("income.csv", get_info_poverty),
   ("population.csv", get_info_pop),
   ("race.csv", get_race_info),
   ("commute_time.csv", get_commute_info),
   ("employment.csv", get_employment_info),
   ("num_vehicles.csv", get_vehicle_info),
   ("hispanic_res.csv", find_pct_hisp)]

/-- The loading loop of `load_link_acs` (src/preprocessing.py:216-224): for
each listed csv name, every file of the folder whose name equals it is read
and cleaned, and the cleaner's returned view is appended to `df_lst`.  A
listed name with no matching file simply contributes nothing. -/
def gatherCleaned (folder : List (String × Table)) :
    List (String × (Table → Except String (Table × Table))) →
      Except String (List Table)
  | [] => Except.ok []
  | (name, fn) :: rest => do
    let here ← mapME
      (fun q => if q.1 == name then Except.map (fun p => [p.2]) (fn q.2)
                else Except.ok [])
      folder
    let more ← gatherCleaned folder rest
    pure (here.flatten ++ more)

/-- `load_link_acs` (src/preprocessing.py:203-231).  The data folder is
embedded as the list of its csv files (name and raw table); `glob` plus the
name-equality test of the source reduce to membership of a listed name in
the folder.  `reduce` over an empty `df_lst` is the Python `TypeError`,
embedded as an error. -/
def load_link_acs (folder : List (String × Table))
    (cleaning_fns : List (String × (Table → Except String (Table × Table)))) :
    Except String Table := do
  let df_lst ← gatherCleaned folder cleaning_fns
  match df_lst with
  | [] => Except.error "reduce of empty sequence"
  | t :: rest => do
    let total_acs := rest.foldl mergeTables t
    let t1 ← find_per_pop total_acs "Total_employment" "total_pop" "pct_employed"
    find_per_pop t1 "Total_num_vehicles" "total_pop" "veh_per_capita"

/-- Row steps of `combine_all_data` line 335:
`merged['density'] = merged['total_pop'] / merged['area']`. -/
def densityRow (r : Row) : Except String Row := do
  let p ← getVal r "total_pop"
  let a ← getVal r "area"
  pure (setVal r "density" (vdiv p a))

/-- Row step of `combine_all_data` line 336:
`merged['interaction'] = merged['num_stops'] * merged['pct_transit']`. -/
def interactionRow (r : Row) : Except String Row := do
  let s ← getVal r "num_stops"
  let pt ← getVal r "pct_transit"
  pure (setVal r "interaction" (vmul s pt))

/-- The combining stage of `combine_all_data` (src/preprocessing.py:333-337)
as a function of its two already-loaded inputs: `pd.merge(stops_blocks,
acs_df)` joins on the one shared column GEOID (inner join, the default),
then the two derived columns are added. -/
def combine_all_data (stops_blocks acs_df : Table) : Except String Table := do
  let merged := mergeTables stops_blocks acs_df
  let m1 ← mapME densityRow merged
  mapME interactionRow m1

/-- `check_null_change_proj` (src/preprocessing.py:253-262): drop the rows
whose geometry is null, then reproject every geometry (`to_crs`, an
external collaborator `proj`).  The non-geometry part of a row is `α`. -/
def check_null_change_proj (proj : G → G2) (rows : List (α × Option G)) :
    List (α × G2) :=
  rows.filterMap (fun p => (p.2).map (fun g => (p.1, proj g)))

/-- A block-group row after `load_blocks`: key, reprojected polygon, the
half-mile buffer around its centroid, and the derived area column. -/
structure BlockRow (G2 B : Type) where
  GEOID : Int
  geometry : G2
  half_mile_rad : B
  area : ℚ
  deriving DecidableEq

/-- `load_blocks` (src/preprocessing.py:234-250).  A raw shapefile row is
(GEOID, optional geometry); the GEOID `astype('int')` cast is modelled by
the key already being an integer.  `centroidF`, `bufferF` and `areaF` are
the geopandas centroid/buffer/area collaborators on reprojected
geometries; areas are in square meters (metric CRS).  The buffer radius is
the source constant `(0.5 * 1000) * 1.60934` meters and the area column is
the source product `blocks_gdf.area * 0.000621371`. -/
def load_blocks (proj : G → G2) (centroidF : G2 → Pt) (bufferF : Pt → ℚ → B)
    (areaF : G2 → ℚ) (raws : List (Int × Option G)) : List (BlockRow G2 B) :=
  let blocks := check_null_change_proj proj raws
  let buffer_len_meters : ℚ := ((1 : ℚ) / 2 * 1000) * (160934 / 100000)
  blocks.map
    (fun p =>
      ⟨p.1, p.2, bufferF (centroidF p.2) buffer_len_meters,
        areaF p.2 * (621371 / 1000000000)⟩)

/-- A stop row as produced by the stop loaders: `{stop_num, stop_name,
geometry}` with the point geometry already reprojected. -/
structure StopRow (P : Type) where
  stop_num : Int
  stop_name : String
  geometry : P
  deriving DecidableEq

/-- A raw CTA bus-stop feature, after `check_null_change_proj` (null
geometries dropped, point reprojected — both external concerns). -/
structure BusRaw (P : Type) where
  systemstop : Int
  public_nam : String
  routesstpg : Option String
  status : String
  geometry : P
  deriving DecidableEq

/-- `len(str.split(x, sep=','))`, the route count of a bus stop's route
list: for every string this is one more than the number of comma
separators it contains. -/
def num_routes (x : String) : Nat :=
  x.data.count ',' + 1

/-- `load_bus_stops` (src/preprocessing.py:265-285): keep the stops with a
non-null route list and status `'1'`, then repeat each row once per
comma-separated route token (`num_routes` copies), keeping
`{systemstop, public_nam, geometry}` renamed to `{stop_num, stop_name,
geometry}`. -/
def load_bus_stops (raws : List (BusRaw P)) : List (StopRow P) :=
  (raws.filter (fun r => r.routesstpg.isSome && r.status == "1")).flatMap
    (fun r =>
      List.replicate (num_routes (r.routesstpg.getD ""))
        ⟨r.systemstop, r.public_nam, r.geometry⟩)

/-- A block-group row of `join_count_stations` output: the input row plus
the `num_stops` count column. -/
structure BlockCountedRow (B : Type) where
  GEOID : Int
  half_mile_rad : B
  num_stops : Nat
  deriving DecidableEq

/-- A block-group row as consumed by `join_count_stations`: key and buffer
polygon (the other columns play no role in the count). -/
structure BlockBufRow (B : Type) where
  GEOID : Int
  half_mile_rad : B
  deriving DecidableEq

/-- `join_count_stations` (src/preprocessing.py:310-323): concatenate the
stop tables (`pd.concat`), then for every block-group buffer set
`num_stops` to `np.sum(all_stops_gdfs.intersects(x))` — the number of
`True`s of the library intersects-predicate `its` over all stops. -/
def join_count_stations (its : P → B → Bool) (block_groups : List (BlockBufRow B))
    (stop_gdfs : List (List (StopRow P))) : List (BlockCountedRow B) :=
  let all_stops := stop_gdfs.flatten
  block_groups.map
    (fun b =>
      ⟨b.GEOID, b.half_mile_rad,
        (all_stops.map (fun s => its s.geometry b.half_mile_rad)).count true⟩)

deriving instance DecidableEq for Except

/-- The per-row sum `pct_white + pct_black + pct_other_race` of a cleaned
race row (the quantity the spec asserts to be exactly 1.0). -/
def rowRaceSum (r : Row) : Val :=
  vadd (vadd (getValD r "pct_white") (getValD r "pct_black"))
    (getValD r "pct_other_race")

/-- A race table with one row whose `Total_race` is zero. -/
def raceT0 : Table :=
  [[("GEOID", some 1), ("White alone_race", some 0),
    ("Black or African American alone_race", some 0), ("Total_race", some 0)]]

/-- A race table with one row on which white+black exceeds the total, so
`pct_other_race` is negative. -/
def raceT5 : Table :=
  [[("GEOID", some 9), ("White alone_race", some 600),
    ("Black or African American alone_race", some 500),
    ("Total_race", some 1000)]]

/-- A small well-formed race table. -/
def raceT8 : Table :=
  [[("GEOID", some 7), ("White alone_race", some 2),
    ("Black or African American alone_race", some 1), ("Total_race", some 4)]]

/-- A minimal income table: no bin column embeds a thousands-separated
number, so the poverty-bin selection is empty. -/
def incomeT : Table :=
  [[("GEOID", some 1), ("Total_income", some 100)]]

/-- A minimal population table. -/
def populationT : Table :=
  [[("GEOID", some 1), ("Total_population", some 200)]]

/-- A minimal commute table carrying every column `get_commute_info`
reads. -/
def commuteT : Table :=
  [[("GEOID", some 1),
    ("Total_commute_time", some 50),
    ("Less than 10 minutes_commute_time", some 5),
    ("10 to 14 minutes_commute_time", some 5),
    ("15 to 19 minutes_commute_time", some 5),
    ("20 to 24 minutes_commute_time", some 5),
    ("25 to 29 minutes_commute_time", some 5),
    ("30 to 34 minutes_commute_time", some 5),
    ("35 to 44 minutes_commute_time", some 5),
    ("45 to 59 minutes_commute_time", some 10),
    ("60 or more minutes_commute_time", some 5),
    ("Car, truck, or van_commute_time", some 30),
    ("Walked_commute_time", some 5),
    ("Taxicab, motorcycle, bicycle, or other means_commute_time", some 5),
    ("Public transportation (excluding taxicab)_commute_time", some 10)]]

/-- A minimal employment table. -/
def employT : Table :=
  [[("GEOID", some 1), ("Total_employment", some 80)]]

/-- A minimal vehicles table. -/
def vehiclesT : Table :=
  [[("GEOID", some 1), ("Total_num_vehicles", some 60)]]

/-- A minimal Hispanic-origin table. -/
def hispT : Table :=
  [[("GEOID", some 1), ("Hispanic or Latino_hispanic_res", some 40),
    ("Total_hispanic_res", some 200)]]

/-- A data folder containing every source file the `SPEC_CLEANING_FNS`
mapping lists except `race.csv`. -/
def folderNoRace : List (String × Table) :=
  [("income.csv", incomeT),
   ("population.csv", populationT),
   ("commute_time.csv", commuteT),
   ("employment.csv", employT),
   ("num_vehicles.csv", vehiclesT),
   ("hispanic_res.csv", hispT)]

/-- The table `load_link_acs` produces on `folderNoRace`: the pipeline
completes and simply carries no race columns. -/
def linkOutNoRace : Table :=
  [[("GEOID", some 1), ("total_hh", some 100), ("pct_hh_pov", some 0),
    ("total_pop", some 200), ("pct_working_age", some 0),
    ("pct_long_commute", some (3/10)), ("pct_car", some (3/5)),
    ("pct_walk", some (1/10)), ("pct_other_transit_mode", some (1/10)),
    ("pct_transit", some (1/5)), ("pct_hisp", some (1/5)),
    ("pct_employed", some (2/5)), ("veh_per_capita", some (3/10))]]

/-- Concrete attribute tables realising the spec's inner-join example:
GEOID sets {1, 2, 3} and {2, 3, 4}. -/
def tA3 : Table :=
  [[("GEOID", some 1), ("a", some 10)],
   [("GEOID", some 2), ("a", some 20)],
   [("GEOID", some 3), ("a", some 30)]]

/-- See `tA3`. -/
def tB3 : Table :=
  [[("GEOID", some 2), ("b", some 200)],
   [("GEOID", some 3), ("b", some 300)],
   [("GEOID", some 4), ("b", some 400)]]

/-- A concrete one-dimensional intersects-predicate for witnesses: a stop
at integer position `s` intersects a buffer `(center, radius)` iff its
distance to the center is at most the radius. -/
def intersectsW (s : ℤ) (b : ℤ × ℤ) : Bool :=
  decide ((s - b.1).natAbs ≤ b.2.natAbs)

/-- Three concrete block-group buffers. -/
def blocksW1 : List (BlockBufRow (ℤ × ℤ)) :=
  [⟨1, (0, 3)⟩, ⟨2, (10, 1)⟩, ⟨3, (100, 2)⟩]

/-- A raw bus stop at position 0 serving three routes. -/
def busRawW : BusRaw ℤ :=
  ⟨5, "Some Corner", some "r1,r2,r3", "1", 0⟩

/-- A rail-stop table with a single stop at position 10. -/
def elW1 : List (StopRow ℤ) :=
  [⟨21, "Some Station", 10⟩]

/-- The stop tables handed to `join_count_stations` in the witness: the
rail table and the expanded bus table. -/
def stopsW1 : List (List (StopRow ℤ)) :=
  [elW1, load_bus_stops [busRawW]]

/-- A geometry+count table with one block group of area 2 and 4 stops. -/
def stopsW6 : Table :=
  [[("GEOID", some 1), ("area", some 2), ("num_stops", some 4)]]

/-- An attribute table with one block group of population 1000 and transit
share 1/4. -/
def acsW6 : Table :=
  [[("GEOID", some 1), ("total_pop", some 1000), ("pct_transit", some (1/4))]]

/-- The combined output table for `stopsW6` and `acsW6`. -/
def outW6 : Table :=
  [[("GEOID", some 1), ("area", some 2), ("num_stops", some 4),
    ("total_pop", some 1000), ("pct_transit", some (1/4)),
    ("density", some 500), ("interaction", some 1)]]

theorem okBind (a : α) (f : α → Except String β) :
    (Except.ok a >>= f) = f a := rfl

theorem errBind (e : String) (f : α → Except String β) :
    ((Except.error e : Except String α) >>= f) = Except.error e := rfl

theorem pureOk (a : α) : (pure a : Except String α) = Except.ok a := rfl

theorem getVal_setVal_self (c : String) (v : Val) :
    ∀ r : Row, getVal (setVal r c v) c = Except.ok v := by
  intro r
  induction r with
  | nil =>
    show getVal [(c, v)] c = Except.ok v
    unfold getVal
    rw [List.find?_cons_of_pos _ (by simp)]
  | cons p rest ih =>
    by_cases h : p.1 = c
    · simp only [setVal, if_pos (show (p.1 == c) = true by simpa using h)]
      unfold getVal
      rw [List.find?_cons_of_pos _ (by simp)]
    · simp only [setVal, if_neg (show ¬(p.1 == c) = true by simpa using h)]
      unfold getVal at ih ⊢
      rw [List.find?_cons_of_neg _ (by simpa using h)]
      exact ih

theorem getVal_setVal_ne (c c2 : String) (v : Val) (hne : c2 ≠ c) :
    ∀ r : Row, getVal (setVal r c v) c2 = getVal r c2 := by
  intro r
  induction r with
  | nil =>
    show getVal [(c, v)] c2 = getVal [] c2
    unfold getVal
    rw [List.find?_cons_of_neg _ (by simp only [beq_iff_eq]; exact Ne.symm hne)]
  | cons p rest ih =>
    by_cases h : p.1 = c
    · simp only [setVal, if_pos (show (p.1 == c) = true by simpa using h)]
      unfold getVal
      rw [List.find?_cons_of_neg _ (by simp only [beq_iff_eq]; exact Ne.symm hne),
        List.find?_cons_of_neg _ (by simp only [beq_iff_eq]; rw [h]; exact Ne.symm hne)]
    · simp only [setVal, if_neg (show ¬(p.1 == c) = true by simpa using h)]
      by_cases h2 : p.1 = c2
      · unfold getVal
        rw [List.find?_cons_of_pos _ (by simpa using h2),
          List.find?_cons_of_pos _ (by simpa using h2)]
      · unfold getVal at ih ⊢
        rw [List.find?_cons_of_neg _ (by simpa using h2),
          List.find?_cons_of_neg _ (by simpa using h2)]
        exact ih

theorem getVal_dropColumn_ne (c c2 : String) (hne : c2 ≠ c) :
    ∀ r : Row, getVal (dropColumn r c) c2 = getVal r c2 := by
  intro r
  induction r with
  | nil => rfl
  | cons p rest ih =>
    by_cases h : p.1 = c
    · simp only [dropColumn, List.filter_cons,
        if_neg (show ¬(p.1 != c) = true by simp [h])]
      unfold getVal at ih ⊢
      rw [List.find?_cons_of_neg _ (by simp only [beq_iff_eq]; rw [h]; exact Ne.symm hne)]
      exact ih
    · simp only [dropColumn, List.filter_cons,
        if_pos (show (p.1 != c) = true by simp [h])]
      by_cases h2 : p.1 = c2
      · unfold getVal
        rw [List.find?_cons_of_pos _ (by simpa using h2),
          List.find?_cons_of_pos _ (by simpa using h2)]
      · unfold getVal at ih ⊢
        rw [List.find?_cons_of_neg _ (by simpa using h2),
          List.find?_cons_of_neg _ (by simpa using h2)]
        exact ih

theorem setVal_fresh (c : String) (v : Val) :
    ∀ r : Row, c ∉ r.map Prod.fst → setVal r c v = r ++ [(c, v)] := by
  intro r
  induction r with
  | nil => intro _; rfl
  | cons p rest ih =>
    intro hc
    simp only [List.map_cons, List.mem_cons] at hc
    push_neg at hc
    simp only [setVal, if_neg (show ¬(p.1 == c) = true by simpa using Ne.symm hc.1)]
    rw [ih hc.2]
    rfl

theorem mapME_ok_length {f : α → Except String β} :
    ∀ {l : List α} {l2 : List β}, mapME f l = Except.ok l2 → l2.length = l.length := by
  intro l
  induction l with
  | nil => intro l2 h; cases h; rfl
  | cons a as ih =>
    intro l2 h
    unfold mapME at h
    cases hfa : f a with
    | error e => rw [hfa] at h; cases h
    | ok b =>
      rw [hfa] at h
      cases hrest : mapME f as with
      | error e => rw [hrest] at h; cases h
      | ok bs =>
        rw [hrest] at h
        cases h
        simp [ih hrest]

theorem mapME_ok_mem {f : α → Except String β} :
    ∀ {l : List α} {l2 : List β}, mapME f l = Except.ok l2 →
      ∀ b ∈ l2, ∃ a ∈ l, f a = Except.ok b := by
  intro l
  induction l with
  | nil => intro l2 h b hb; cases h; cases hb
  | cons a as ih =>
    intro l2 h b hb
    unfold mapME at h
    cases hfa : f a with
    | error e => rw [hfa] at h; cases h
    | ok b0 =>
      rw [hfa] at h
      cases hrest : mapME f as with
      | error e => rw [hrest] at h; cases h
      | ok bs =>
        rw [hrest] at h
        cases h
        rcases List.mem_cons.1 hb with hb0 | hbs
        · exact ⟨a, List.mem_cons_self a as, by rw [hfa, hb0]⟩
        · obtain ⟨a2, ha2, hfa2⟩ := ih hrest b hbs
          exact ⟨a2, List.mem_cons_of_mem a ha2, hfa2⟩

theorem mapME_ok_get {f : α → Except String β} :
    ∀ {l : List α} {l2 : List β}, mapME f l = Except.ok l2 →
      ∀ i (h1 : i < l.length) (h2 : i < l2.length),
        f (l.get ⟨i, h1⟩) = Except.ok (l2.get ⟨i, h2⟩) := by
  intro l
  induction l with
  | nil => intro l2 h i h1 h2; cases h1
  | cons a as ih =>
    intro l2 h i h1 h2
    unfold mapME at h
    cases hfa : f a with
    | error e => rw [hfa] at h; cases h
    | ok b0 =>
      rw [hfa] at h
      cases hrest : mapME f as with
      | error e => rw [hrest] at h; cases h
      | ok bs =>
        rw [hrest] at h
        cases h
        cases i with
        | zero => simpa using hfa
        | succ j =>
          exact ih hrest j (Nat.lt_of_succ_lt_succ h1) (Nat.lt_of_succ_lt_succ h2)

theorem mapME_ok_of_forall {f : α → Except String β} :
    ∀ {l : List α}, (∀ a ∈ l, ∃ b, f a = Except.ok b) →
      ∃ l2, mapME f l = Except.ok l2 := by
  intro l
  induction l with
  | nil => intro _; exact ⟨[], rfl⟩
  | cons a as ih =>
    intro h
    obtain ⟨b, hb⟩ := h a (List.mem_cons_self a as)
    obtain ⟨bs, hbs⟩ := ih (fun x hx => h x (List.mem_cons_of_mem a hx))
    refine ⟨b :: bs, ?_⟩
    unfold mapME
    rw [hb, hbs]

theorem getValD_of_getVal {r : Row} {c : String} {v : Val}
    (h : getVal r c = Except.ok v) : getValD r c = v := by
  unfold getVal at h
  unfold getValD
  cases hf : r.find? (fun p => p.1 == c) with
  | none => rw [hf] at h; cases h
  | some p => rw [hf] at h; cases h; rfl

theorem mapOk (f : α → β) (a : α) :
    Except.map f (Except.ok a : Except String α) = Except.ok (f a) := rfl

theorem selectCols_ok {r : Row} :
    ∀ {cols : List String} {out : Row}, selectCols r cols = Except.ok out →
      out = cols.map (fun c => (c, getValD r c)) := by
  intro cols
  induction cols with
  | nil => intro out h; cases h; rfl
  | cons c cs ih =>
    intro out h
    unfold selectCols mapME at h
    cases hg : getVal r c with
    | error e => rw [hg] at h; cases h
    | ok v =>
      rw [hg, mapOk] at h
      cases hrest : mapME (fun c => Except.map (fun v => (c, v)) (getVal r c)) cs with
      | error e => rw [hrest] at h; cases h
      | ok outs =>
        rw [hrest] at h
        cases h
        have := ih (show selectCols r cs = Except.ok outs from hrest)
        simp [this, getValD_of_getVal hg]

theorem mem_inner_fold (lo hi : Int) (c x : String) :
    ∀ (nums : List String) (s : Finset String),
      (x ∈ nums.foldl
          (fun s2 num =>
            if atoi num ≥ lo ∧ atoi num < hi then insert c s2 else s2) s ↔
        x ∈ s ∨ (x = c ∧ ∃ n ∈ nums, atoi n ≥ lo ∧ atoi n < hi)) := by
  intro nums
  induction nums with
  | nil => intro s; simp
  | cons n ns ih =>
    intro s
    simp only [List.foldl_cons]
    by_cases h : atoi n ≥ lo ∧ atoi n < hi
    · rw [if_pos h, ih]
      simp only [Finset.mem_insert, List.mem_cons]
      constructor
      · rintro ((hc | hs) | ⟨hc, n2, hn2, hp⟩)
        · exact Or.inr ⟨hc, n, Or.inl rfl, h⟩
        · exact Or.inl hs
        · exact Or.inr ⟨hc, n2, Or.inr hn2, hp⟩
      · rintro (hs | ⟨hc, n2, hn2, hp⟩)
        · exact Or.inl (Or.inr hs)
        · exact Or.inl (Or.inl hc)
    · rw [if_neg h, ih]
      simp only [List.mem_cons]
      constructor
      · rintro (hs | ⟨hc, n2, hn2, hp⟩)
        · exact Or.inl hs
        · exact Or.inr ⟨hc, n2, Or.inr hn2, hp⟩
      · rintro (hs | ⟨hc, n2, hn2 | hn2, hp⟩)
        · exact Or.inl hs
        · exact absurd (hn2 ▸ hp) h
        · exact Or.inr ⟨hc, n2, hn2, hp⟩

theorem mem_find_rel_cols_aux (lo hi : Int) (ex : String → List String) (x : String) :
    ∀ (cols : List String) (s : Finset String),
      (x ∈ cols.foldl
          (fun s col =>
            (ex col).foldl
              (fun s2 num =>
                if atoi num ≥ lo ∧ atoi num < hi then insert col s2 else s2) s) s ↔
        x ∈ s ∨ (x ∈ cols ∧ ∃ n ∈ ex x, atoi n ≥ lo ∧ atoi n < hi)) := by
  intro cols
  induction cols with
  | nil => intro s; simp
  | cons col cs ih =>
    intro s
    simp only [List.foldl_cons]
    rw [ih, mem_inner_fold]
    simp only [List.mem_cons]
    constructor
    · rintro ((hs | ⟨hc, hex⟩) | ⟨hcs, hex⟩)
      · exact Or.inl hs
      · exact Or.inr ⟨Or.inl hc, by rw [hc]; exact hex⟩
      · exact Or.inr ⟨Or.inr hcs, hex⟩
    · rintro (hs | ⟨hc | hcs, hex⟩)
      · exact Or.inl (Or.inl hs)
      · exact Or.inl (Or.inr ⟨hc, by rw [← hc]; exact hex⟩)
      · exact Or.inr ⟨hcs, hex⟩

theorem mem_find_rel_cols (cols : List String) (lo hi : Int)
    (ex : String → List String) (x : String) :
    x ∈ find_rel_cols cols lo hi ex ↔
      x ∈ cols ∧ ∃ n ∈ ex x, atoi n ≥ lo ∧ atoi n < hi := by
  unfold find_rel_cols
  rw [mem_find_rel_cols_aux]
  simp

theorem mem_mergeTables {x y : Table} {rc : Row} :
    rc ∈ mergeTables x y ↔
      ∃ rx ∈ x, ∃ ry ∈ y, keyEq rx ry = true ∧ rc = rx ++ dropColumn ry "GEOID" := by
  unfold mergeTables
  simp only [List.mem_flatMap, List.mem_map, List.mem_filter]
  constructor
  · rintro ⟨rx, hrx, ry, ⟨hry, hk⟩, hrc⟩
    exact ⟨rx, hrx, ry, hry, hk, hrc.symm⟩
  · rintro ⟨rx, hrx, ry, hry, hk, hrc⟩
    exact ⟨rx, hrx, ry, ⟨hry, hk⟩, hrc.symm⟩

theorem rowKeyQ_append_left {rx : Row} {q : ℚ} (h : rowKeyQ rx = some q)
    (l : Row) : rowKeyQ (rx ++ l) = some q := by
  unfold rowKeyQ at h ⊢
  cases hf : rx.find? (fun p => p.1 == "GEOID") with
  | none => rw [hf] at h; cases h
  | some p =>
    rw [hf] at h
    rw [List.find?_append, hf]
    exact h

theorem mem_keysOf {t : Table} {q : ℚ} :
    q ∈ keysOf t ↔ ∃ r ∈ t, rowKeyQ r = some q := by
  induction t with
  | nil => simp [keysOf]
  | cons r rest ih =>
    show q ∈ (match rowKeyQ r with
      | some q2 => insert q2 (keysOf rest)
      | none => keysOf rest) ↔ _
    cases hk : rowKeyQ r with
    | none =>
      rw [ih]
      simp only [List.mem_cons]
      constructor
      · rintro ⟨r2, h2, h3⟩; exact ⟨r2, Or.inr h2, h3⟩
      · rintro ⟨r2, hr | h2, h3⟩
        · rw [hr, hk] at h3; cases h3
        · exact ⟨r2, h2, h3⟩
    | some q2 =>
      simp only [Finset.mem_insert, List.mem_cons]
      rw [ih]
      constructor
      · rintro (hq | ⟨r2, h2, h3⟩)
        · exact ⟨r, Or.inl rfl, by rw [hk, hq]⟩
        · exact ⟨r2, Or.inr h2, h3⟩
      · rintro ⟨r2, hr | h2, h3⟩
        · rw [hr, hk] at h3; exact Or.inl (Option.some_inj.1 h3).symm
        · exact Or.inr ⟨r2, h2, h3⟩

theorem keysOf_mergeTables (x y : Table) :
    keysOf (mergeTables x y) = keysOf x ∩ keysOf y := by
  ext q
  rw [Finset.mem_inter, mem_keysOf, mem_keysOf, mem_keysOf]
  constructor
  · rintro ⟨rc, hrc, hk⟩
    obtain ⟨rx, hrx, ry, hry, hkeq, heq⟩ := mem_mergeTables.1 hrc
    unfold keyEq at hkeq
    cases hx : rowKeyQ rx with
    | none => rw [hx] at hkeq; cases hkeq
    | some a =>
      rw [hx] at hkeq
      cases hy : rowKeyQ ry with
      | none => rw [hy] at hkeq; cases hkeq
      | some b =>
        rw [hy] at hkeq
        have hab : a = b := of_decide_eq_true hkeq
        rw [heq, rowKeyQ_append_left hx] at hk
        cases hk
        exact ⟨⟨rx, hrx, hx⟩, ⟨ry, hry, by rw [hy, hab]⟩⟩
  · rintro ⟨⟨rx, hrx, hx⟩, ⟨ry, hry, hy⟩⟩
    refine ⟨rx ++ dropColumn ry "GEOID", ?_, rowKeyQ_append_left hx _⟩
    refine mem_mergeTables.2 ⟨rx, hrx, ry, hry, ?_, rfl⟩
    unfold keyEq
    rw [hx, hy]
    exact decide_eq_true rfl

theorem count_true_map_filter (l : List α) (f : α → Bool) :
    (l.map f).count true = (l.filter f).length := by
  induction l with
  | nil => rfl
  | cons a l ih =>
    cases hfa : f a <;>
      simp [List.count_cons, List.filter_cons, hfa, ih]

/-- Claim C4: for every column-name list, inclusive lower bound, exclusive
upper bound and extraction pattern, `find_rel_cols` returns exactly the set
of column names containing at least one extracted number `n` (parsed
locale-aware, so thousands separators as in "25,000" are accepted) with
`lo ≤ n < hi`; no match yields the empty set rather than an error; the
result is a set: permuting the column list does not change it, and
re-applying the selector to the selected columns returns the same set. -/
theorem claim_C4 :
    (∀ (cols : List String) (lo hi : Int) (ex : String → List String) (x : String),
        x ∈ find_rel_cols cols lo hi ex ↔
          x ∈ cols ∧ ∃ n ∈ ex x, lo ≤ atoi n ∧ atoi n < hi)
    ∧ (∀ (cols : List String) (lo hi : Int) (ex : String → List String),
        (∀ c ∈ cols, ∀ n ∈ ex c, ¬(lo ≤ atoi n ∧ atoi n < hi)) →
          find_rel_cols cols lo hi ex = ∅)
    ∧ (∀ (cols cols2 : List String) (lo hi : Int) (ex : String → List String),
        cols.Perm cols2 →
          find_rel_cols cols lo hi ex = find_rel_cols cols2 lo hi ex)
    ∧ (∀ (cols : List String) (lo hi : Int) (ex : String → List String),
        find_rel_cols
          (cols.filter (fun c => decide (c ∈ find_rel_cols cols lo hi ex)))
          lo hi ex = find_rel_cols cols lo hi ex)
    ∧ atoi "25,000" = 25000 := by
  refine ⟨?_, ?_, ?_, ?_, by decide⟩
  · intro cols lo hi ex x
    exact mem_find_rel_cols cols lo hi ex x
  · intro cols lo hi ex h
    ext x
    rw [mem_find_rel_cols]
    simp only [Finset.not_mem_empty, iff_false]
    rintro ⟨hx, n, hn, hp⟩
    exact h x hx n hn hp
  · intro cols cols2 lo hi ex hperm
    ext x
    rw [mem_find_rel_cols, mem_find_rel_cols]
    rw [hperm.mem_iff]
  · intro cols lo hi ex
    ext x
    rw [mem_find_rel_cols, mem_find_rel_cols]
    constructor
    · rintro ⟨hx, hex⟩
      rw [List.mem_filter] at hx
      exact (mem_find_rel_cols cols lo hi ex x).1 (of_decide_eq_true hx.2)
    · rintro ⟨hx, hex⟩
      refine ⟨List.mem_filter.2 ⟨hx, ?_⟩, hex⟩
      exact decide_eq_true ((mem_find_rel_cols cols lo hi ex x).2 ⟨hx, hex⟩)

/-- Witness for C4: the poverty-bin selection on columns with no embedded
thousands-separated number is empty, and permuting the column list leaves
the selection unchanged. -/
theorem claim_C4_witness :
    (find_rel_cols ["GEOID", "Total_income"] 0 25000 commaRunMatches = ∅)
    ∧ (find_rel_cols ["a_col", "b_col"] 15 65 twoDigitMatches =
        find_rel_cols ["b_col", "a_col"] 15 65 twoDigitMatches) :=
  ⟨claim_C4.2.1 ["GEOID", "Total_income"] 0 25000 commaRunMatches (by decide),
   claim_C4.2.2.1 ["a_col", "b_col"] ["b_col", "a_col"] 15 65 twoDigitMatches
     (List.Perm.swap "b_col" "a_col" [])⟩

theorem exIsOk_ok {e : Except String α} (h : exIsOk e = true) :
    ∃ a, e = Except.ok a := by
  cases e with
  | ok a => exact ⟨a, rfl⟩
  | error s => cases h

/-- Claim C10: `get_commute_info` computes `pct_long_commute` with a
45-minute threshold: the bins selected from the fixed `time_cols` by
`find_rel_cols _ 45 1000` with the two-digit pattern are exactly the
'45 to 59 minutes' and '60 or more minutes' bins — the '35 to 44 minutes'
bin is excluded — and on every row the column is set to the sum of those
two bins divided by the total-commuters column. -/
theorem claim_C10 :
    (time_cols.filter
        (fun c => c ∈ find_rel_cols time_cols 45 1000 twoDigitMatches) =
      ["45 to 59 minutes_commute_time", "60 or more minutes_commute_time"])
    ∧ ("35 to 44 minutes_commute_time" ∉
        find_rel_cols time_cols 45 1000 twoDigitMatches)
    ∧ (∀ (r : Row) (v45 v60 tot : Val),
        (∀ c ∈ time_cols, exIsOk (getVal r c) = true) →
        getVal r "45 to 59 minutes_commute_time" = Except.ok v45 →
        getVal r "60 or more minutes_commute_time" = Except.ok v60 →
        getVal r "Total_commute_time" = Except.ok tot →
        commuteLongRow (find_rel_cols time_cols 45 1000 twoDigitMatches) r =
          Except.ok
            (setVal r "pct_long_commute" (vdiv (sumVals [v45, v60]) tot))
        ∧ getVal
            (setVal r "pct_long_commute" (vdiv (sumVals [v45, v60]) tot))
            "pct_long_commute" =
          Except.ok (vdiv (sumVals [v45, v60]) tot)) := by
  refine ⟨by decide, by decide, ?_⟩
  intro r v45 v60 tot hall h45 h60 htot
  obtain ⟨vs0, hvs0⟩ := mapME_ok_of_forall (fun c hc => exIsOk_ok (hall c hc))
  constructor
  · unfold commuteLongRow
    rw [hvs0, okBind]
    have hfil : time_cols.filter
        (fun c => c ∈ find_rel_cols time_cols 45 1000 twoDigitMatches) =
        ["45 to 59 minutes_commute_time", "60 or more minutes_commute_time"] := by
      decide
    rw [hfil]
    simp only [mapME, h45, h60, okBind, htot, pureOk]
  · exact getVal_setVal_self _ _ _

/-- Witness for C10: a concrete commute row with bins 10 and 5 and total 50
gets `pct_long_commute = 3/10`. -/
theorem claim_C10_witness :
    commuteLongRow (find_rel_cols time_cols 45 1000 twoDigitMatches)
        (commuteT.headI) =
      Except.ok
        (setVal (commuteT.headI) "pct_long_commute"
          (vdiv (sumVals [some 10, some 5]) (some 50))) :=
  (claim_C10.2.2 (commuteT.headI) (some 10) (some 5) (some 50)
    (by decide) (by decide) (by decide) (by decide)).1

/-- Claim C3: the progressive pairwise `pd.merge` on GEOID keeps exactly
the GEOIDs present in every contributing table: a key is in the fold of
`mergeTables` over a nonempty list of tables iff it is a key of each of
them, so the final key set is invariant under permuting the merge order;
the literal example merges tables with GEOID sets {1,2,3} and {2,3,4} into
exactly the rows for {2,3}. -/
theorem claim_C3 :
    (∀ (t : Table) (ts : List Table) (q : ℚ),
        q ∈ keysOf (ts.foldl mergeTables t) ↔
          q ∈ keysOf t ∧ ∀ u ∈ ts, q ∈ keysOf u)
    ∧ (∀ (t t2 : Table) (ts ts2 : List Table),
        (t :: ts).Perm (t2 :: ts2) →
          keysOf (ts.foldl mergeTables t) = keysOf (ts2.foldl mergeTables t2))
    ∧ mergeTables tA3 tB3 =
        [[("GEOID", some 2), ("a", some 20), ("b", some 200)],
         [("GEOID", some 3), ("a", some 30), ("b", some 300)]]
    ∧ keysOf tA3 = {1, 2, 3}
    ∧ keysOf tB3 = {2, 3, 4}
    ∧ keysOf (mergeTables tA3 tB3) = {2, 3} := by
  have h1 : ∀ (t : Table) (ts : List Table) (q : ℚ),
      q ∈ keysOf (ts.foldl mergeTables t) ↔
        q ∈ keysOf t ∧ ∀ u ∈ ts, q ∈ keysOf u := by
    intro t ts
    induction ts generalizing t with
    | nil => intro q; simp
    | cons u us ih =>
      intro q
      simp only [List.foldl_cons]
      rw [ih (mergeTables t u), keysOf_mergeTables, Finset.mem_inter]
      simp only [List.mem_cons]
      constructor
      · rintro ⟨⟨ht, hu⟩, hus⟩
        refine ⟨ht, ?_⟩
        rintro u2 (rfl | hu2)
        · exact hu
        · exact hus u2 hu2
      · rintro ⟨ht, hall⟩
        exact ⟨⟨ht, hall u (Or.inl rfl)⟩, fun u2 hu2 => hall u2 (Or.inr hu2)⟩
  refine ⟨h1, ?_, by decide, by rfl, by rfl, by rfl⟩
  intro t t2 ts ts2 hperm
  ext q
  rw [h1 t ts q, h1 t2 ts2 q]
  have hiff : ∀ (a : Table) (l : List Table),
      (q ∈ keysOf a ∧ ∀ u ∈ l, q ∈ keysOf u) ↔
        ∀ u ∈ a :: l, q ∈ keysOf u := by
    intro a l
    simp
  rw [hiff, hiff]
  constructor
  · intro h u hu
    exact h u (hperm.mem_iff.mpr hu)
  · intro h u hu
    exact h u (hperm.mem_iff.mp hu)

/-- Witness for C3: merging the two literal tables in either order yields
the same GEOID key set. -/
theorem claim_C3_witness :
    keysOf (List.foldl mergeTables tA3 [tB3]) =
      keysOf (List.foldl mergeTables tB3 [tA3]) :=
  claim_C3.2.1 tA3 tB3 [tB3] [tA3] (List.Perm.swap tB3 tA3 [])

/-- Claim C1: `join_count_stations` sets each block-group row's `num_stops`
to the number of rows of the concatenated stop tables whose geometry the
library predicate reports as intersecting that row's buffer polygon;
`load_bus_stops` distributes over concatenation and turns one kept raw bus
stop with route list `s` into `num_routes s` identical stop rows, so a stop
tagged with 3 routes contributes 3 to every buffer containing its
location. -/
theorem claim_C1 :
    (∀ (P B : Type) (its : P → B → Bool) (block_groups : List (BlockBufRow B))
        (stop_gdfs : List (List (StopRow P))) (bc : BlockCountedRow B),
        bc ∈ join_count_stations its block_groups stop_gdfs →
          bc.num_stops =
            ((stop_gdfs.flatten).filter
              (fun s => its s.geometry bc.half_mile_rad)).length)
    ∧ (∀ (P : Type) (raws1 raws2 : List (BusRaw P)),
        load_bus_stops (raws1 ++ raws2) =
          load_bus_stops raws1 ++ load_bus_stops raws2)
    ∧ (∀ (P : Type) (r : BusRaw P) (s : String),
        r.routesstpg = some s → r.status = "1" →
          load_bus_stops [r] =
            List.replicate (num_routes s)
              ⟨r.systemstop, r.public_nam, r.geometry⟩) := by
  refine ⟨?_, ?_, ?_⟩
  · intro P B its block_groups stop_gdfs bc hbc
    unfold join_count_stations at hbc
    obtain ⟨b, hb, rfl⟩ := List.mem_map.1 hbc
    exact count_true_map_filter _ _
  · intro P raws1 raws2
    unfold load_bus_stops
    rw [List.filter_append, List.flatMap_append]
  · intro P r s h1 h2
    simp [load_bus_stops, h1, h2]

/-- Witness for C1: with a one-dimensional intersects-predicate, a buffer
holding only the 3-route bus stop counts 3, a buffer holding exactly one
rail stop counts 1, and a buffer holding nothing counts 0. -/
theorem claim_C1_witness :
    ((⟨1, (0, 3), 3⟩ : BlockCountedRow (ℤ × ℤ)) ∈
        join_count_stations intersectsW blocksW1 stopsW1)
    ∧ (3 : Nat) =
        ((stopsW1.flatten).filter
          (fun s => intersectsW s.geometry ((0 : ℤ), (3 : ℤ)))).length
    ∧ join_count_stations intersectsW blocksW1 stopsW1 =
        [⟨1, (0, 3), 3⟩, ⟨2, (10, 1), 1⟩, ⟨3, (100, 2), 0⟩]
    ∧ load_bus_stops [busRawW] =
        List.replicate (num_routes "r1,r2,r3") ⟨5, "Some Corner", 0⟩ := by
  refine ⟨by decide, ?_, by decide,
    claim_C1.2.2 ℤ busRawW "r1,r2,r3" rfl rfl⟩
  exact claim_C1.1 ℤ (ℤ × ℤ) intersectsW blocksW1 stopsW1 ⟨1, (0, 3), 3⟩
    (by decide)

section RatEval

attribute [local semireducible] Rat.add Rat.sub Rat.mul Rat.inv

/-- Claim C2 (refuting the area conversion): `load_blocks` on a feature of
metric area 1,000,000 m² (one square kilometer) stores
`area = 1000000 * 0.000621371 = 621.371` — it multiplies the square-meter
area by the linear meters-to-miles factor — which differs from the
square-meters-to-square-miles conversion `1000000 * 0.000621371²` the claim
describes; the buffer column does carry radius `(0.5 * 1000) * 1.60934 =
804.67` meters around the centroid. -/
theorem claim_C2_bug :
    load_blocks (fun g : ℚ => g) (fun g : ℚ => g) (fun p r => (p, r))
        (fun g : ℚ => g) [((1 : Int), some (1000000 : ℚ))] =
      [⟨1, 1000000, (1000000, 80467 / 100), 621371 / 1000⟩]
    ∧ ((621371 : ℚ) / 1000 ≠
        1000000 * ((621371 : ℚ) / 1000000000) * ((621371 : ℚ) / 1000000000)) := by
  constructor
  · decide
  · decide

/-- Claim C6: every row of the Combiner's output carries
`density = total_pop / area` and `interaction = num_stops * pct_transit`,
and in particular `1000 / 2 = 500` and `4 * (1/4) = 1`. -/
theorem claim_C6 :
    (∀ (stops_blocks acs_df out : Table),
        combine_all_data stops_blocks acs_df = Except.ok out →
        ∀ r ∈ out, ∃ vp va vs vt,
          getVal r "total_pop" = Except.ok vp ∧
          getVal r "area" = Except.ok va ∧
          getVal r "num_stops" = Except.ok vs ∧
          getVal r "pct_transit" = Except.ok vt ∧
          getVal r "density" = Except.ok (vdiv vp va) ∧
          getVal r "interaction" = Except.ok (vmul vs vt))
    ∧ vdiv (some 1000) (some 2) = some 500
    ∧ vmul (some 4) (some (1 / 4)) = some 1 := by
  refine ⟨?_, by decide, by decide⟩
  intro stops acs out h r hr
  unfold combine_all_data at h
  change (mapME densityRow (mergeTables stops acs) >>= fun m1 =>
    mapME interactionRow m1) = Except.ok out at h
  cases hm1 : mapME densityRow (mergeTables stops acs) with
  | error e => rw [hm1, errBind] at h; cases h
  | ok m1 =>
    rw [hm1, okBind] at h
    obtain ⟨r1, hr1, hint⟩ := mapME_ok_mem h r hr
    obtain ⟨r0, _hr0, hden⟩ := mapME_ok_mem hm1 r1 hr1
    unfold densityRow at hden
    cases hp : getVal r0 "total_pop" with
    | error e => rw [hp, errBind] at hden; cases hden
    | ok vp =>
      rw [hp, okBind] at hden
      cases ha : getVal r0 "area" with
      | error e => rw [ha, errBind] at hden; cases hden
      | ok va =>
        rw [ha, okBind, pureOk] at hden
        injection hden with hden
        unfold interactionRow at hint
        cases hs : getVal r1 "num_stops" with
        | error e => rw [hs, errBind] at hint; cases hint
        | ok vs =>
          rw [hs, okBind] at hint
          cases ht : getVal r1 "pct_transit" with
          | error e => rw [ht, errBind] at hint; cases hint
          | ok vt =>
            rw [ht, okBind, pureOk] at hint
            injection hint with hint
            refine ⟨vp, va, vs, vt, ?_, ?_, ?_, ?_, ?_, ?_⟩
            · rw [← hint, getVal_setVal_ne _ _ _ (by decide), ← hden,
                getVal_setVal_ne _ _ _ (by decide)]
              exact hp
            · rw [← hint, getVal_setVal_ne _ _ _ (by decide), ← hden,
                getVal_setVal_ne _ _ _ (by decide)]
              exact ha
            · rw [← hint, getVal_setVal_ne _ _ _ (by decide)]
              exact hs
            · rw [← hint, getVal_setVal_ne _ _ _ (by decide)]
              exact ht
            · rw [← hint, getVal_setVal_ne _ _ _ (by decide), ← hden]
              exact getVal_setVal_self _ _ _
            · rw [← hint]
              exact getVal_setVal_self _ _ _

/-- Witness for C6: the one-row tables with `total_pop = 1000`, `area = 2`,
`num_stops = 4`, `pct_transit = 1/4` combine to `density = 500` and
`interaction = 1`. -/
theorem claim_C6_witness :
    combine_all_data stopsW6 acsW6 = Except.ok outW6
    ∧ (∀ r ∈ outW6, ∃ vp va vs vt,
        getVal r "total_pop" = Except.ok vp ∧
        getVal r "area" = Except.ok va ∧
        getVal r "num_stops" = Except.ok vs ∧
        getVal r "pct_transit" = Except.ok vt ∧
        getVal r "density" = Except.ok (vdiv vp va) ∧
        getVal r "interaction" = Except.ok (vmul vs vt))
    ∧ getVal (outW6.headI) "density" = Except.ok (some 500)
    ∧ getVal (outW6.headI) "interaction" = Except.ok (some 1) := by
  have h : combine_all_data stopsW6 acsW6 = Except.ok outW6 := by decide
  exact ⟨h, claim_C6.1 stopsW6 acsW6 outW6 h, by decide, by decide⟩

end RatEval

theorem mapME_all_nil {f : α → Except String (List β)} :
    ∀ {l : List α}, (∀ a ∈ l, f a = Except.ok []) →
      mapME f l = Except.ok (List.replicate l.length []) := by
  intro l
  induction l with
  | nil => intro _; rfl
  | cons a as ih =>
    intro h
    unfold mapME
    rw [h a (List.mem_cons_self a as), ih (fun x hx => h x (List.mem_cons_of_mem a hx))]
    rfl

theorem flatten_replicate_nil : ∀ n : Nat, (List.replicate n ([] : List α)).flatten = [] := by
  intro n
  induction n with
  | zero => rfl
  | succ m ih => simp [List.replicate_succ, ih]

section RatEval2

attribute [local semireducible] Rat.add Rat.sub Rat.mul Rat.inv

/-- Claim C7 (refuting the missing-file failure): the folder lacking the
listed `race.csv` does not make `load_link_acs` fail — the pipeline
completes and returns a table. -/
theorem claim_C7_counterexample :
    ("race.csv" ∈ SPEC_CLEANING_FNS.map Prod.fst)
    ∧ ("race.csv" ∉ folderNoRace.map Prod.fst)
    ∧ load_link_acs folderNoRace SPEC_CLEANING_FNS = Except.ok linkOutNoRace := by
  refine ⟨by decide, by decide, by decide⟩

/-- Claim C7 as amended: a listed source file absent from the folder is
silently skipped — on `folderNoRace` the pipeline succeeds and its output
simply lacks the race columns — and `load_link_acs` only fails outright at
the merge stage when no listed file matches the folder at all (the `reduce`
of an empty table list). -/
theorem claim_C7_amended :
    (∀ (folder : List (String × Table))
        (fns : List (String × (Table → Except String (Table × Table)))),
        (∀ p ∈ fns, ∀ q ∈ folder, q.1 ≠ p.1) →
          load_link_acs folder fns = Except.error "reduce of empty sequence")
    ∧ load_link_acs folderNoRace SPEC_CLEANING_FNS = Except.ok linkOutNoRace
    ∧ (∀ r ∈ linkOutNoRace, "pct_white" ∉ r.map Prod.fst) := by
  refine ⟨?_, by decide, by decide⟩
  intro folder fns h
  have hgather : gatherCleaned folder fns = Except.ok [] := by
    induction fns with
    | nil => rfl
    | cons p rest ih =>
      unfold gatherCleaned
      have hhere : mapME
          (fun q => if q.1 == p.1 then Except.map (fun p2 => [p2.2]) (p.2 q.2)
                    else Except.ok []) folder =
          Except.ok (List.replicate folder.length []) := by
        apply mapME_all_nil
        intro q hq
        rw [if_neg]
        simp only [beq_iff_eq]
        exact h p (List.mem_cons_self p rest) q hq
      rw [hhere, okBind,
        ih (fun p2 hp2 => h p2 (List.mem_cons_of_mem p hp2)), okBind, pureOk,
        flatten_replicate_nil]
      rfl
  unfold load_link_acs
  rw [hgather, okBind]

/-- Witness for C7: on an empty folder no listed file matches and the
pipeline aborts with the empty-reduce error. -/
theorem claim_C7_witness :
    load_link_acs [] SPEC_CLEANING_FNS = Except.error "reduce of empty sequence" :=
  claim_C7_amended.1 [] SPEC_CLEANING_FNS (by decide)

end RatEval2

theorem raceRow_spec (r : Row) (w b tot : Val)
    (hw : getVal r "White alone_race" = Except.ok w)
    (hb : getVal r "Black or African American alone_race" = Except.ok b)
    (ht : getVal r "Total_race" = Except.ok tot) :
    raceRow r = Except.ok
      (setVal (setVal (setVal r "pct_white" (vdiv w tot)) "pct_black"
          (vdiv b tot)) "pct_other_race"
        (vsub (some 1) (vadd (vdiv w tot) (vdiv b tot)))) := by
  unfold raceRow
  rw [hw, okBind, ht, okBind]
  simp only []
  rw [getVal_setVal_ne _ _ _ (by decide), hb, okBind]
  rw [getVal_setVal_ne _ _ _ (by decide), ht, okBind]
  rw [getVal_setVal_ne _ _ _ (by decide), getVal_setVal_self, okBind]
  rw [getVal_setVal_self, okBind, pureOk]

theorem rowRaceSum_sel (g a1 a2 a3 : Val) :
    rowRaceSum
        [("GEOID", g), ("pct_white", a1), ("pct_black", a2),
         ("pct_other_race", a3)] =
      vadd (vadd a1 a2) a3 := rfl

section RatEval3

attribute [local semireducible] Rat.add Rat.sub Rat.mul Rat.inv

/-- Claim C5 (refuting "1.0 exactly on every row"): on a row whose
`Total_race` is zero the divisions are undefined, so the returned view
carries undefined race percentages and their sum is not 1. -/
theorem claim_C5_counterexample :
    get_race_info raceT0 = Except.ok
      ([[("GEOID", some 1), ("White alone_race", some 0),
         ("Black or African American alone_race", some 0),
         ("Total_race", some 0), ("pct_white", none), ("pct_black", none),
         ("pct_other_race", none)]],
       [[("GEOID", some 1), ("pct_white", none), ("pct_black", none),
         ("pct_other_race", none)]])
    ∧ rowRaceSum
        [("GEOID", some 1), ("pct_white", none), ("pct_black", none),
         ("pct_other_race", none)] ≠ some 1 := by
  exact ⟨by decide, by decide⟩

/-- Claim C5 as amended: on every row whose race counts are defined and
whose `Total_race` is nonzero, the returned view satisfies
`pct_white + pct_black + pct_other_race = 1` exactly — by construction of
the complement, also when `pct_other_race` is negative; rows with a zero
total instead propagate undefined percentages. -/
theorem claim_C5_amended :
    ∀ (t t1 sel : Table), get_race_info t = Except.ok (t1, sel) →
      (∀ r ∈ t, ∃ w b tot g,
          getVal r "White alone_race" = Except.ok (some w) ∧
          getVal r "Black or African American alone_race" = Except.ok (some b) ∧
          getVal r "Total_race" = Except.ok (some tot) ∧ tot ≠ 0 ∧
          getVal r "GEOID" = Except.ok g) →
      ∀ out ∈ sel, rowRaceSum out = some 1 := by
  intro t t1 sel h hpre out hout
  unfold get_race_info at h
  cases ht1 : mapME raceRow t with
  | error e => rw [ht1, errBind] at h; cases h
  | ok t1x =>
    rw [ht1, okBind] at h
    cases hsel : mapME
        (fun r => selectCols r
          ["GEOID", "pct_white", "pct_black", "pct_other_race"]) t1x with
    | error e => rw [hsel, errBind] at h; cases h
    | ok selx =>
      rw [hsel, okBind, pureOk] at h
      injection h with h
      injection h with h1 h2
      subst h1
      subst h2
      obtain ⟨r1, hr1, hselr⟩ := mapME_ok_mem hsel out hout
      obtain ⟨r0, hr0, hrace⟩ := mapME_ok_mem ht1 r1 hr1
      obtain ⟨w, b, tot, g, hw, hb, htot, hne, hg⟩ := hpre r0 hr0
      rw [raceRow_spec r0 (some w) (some b) (some tot) hw hb htot] at hrace
      injection hrace with hrace
      have hsel2 := selectCols_ok hselr
      have hdw : vdiv (some w) (some tot) = some (w / tot) := by
        simp only [vdiv]
        rw [if_neg hne]
      have hdb : vdiv (some b) (some tot) = some (b / tot) := by
        simp only [vdiv]
        rw [if_neg hne]
      have hgw : getValD r1 "pct_white" = some (w / tot) := by
        apply getValD_of_getVal
        rw [← hrace, getVal_setVal_ne _ _ _ (by decide),
          getVal_setVal_ne _ _ _ (by decide), getVal_setVal_self, hdw]
      have hgb : getValD r1 "pct_black" = some (b / tot) := by
        apply getValD_of_getVal
        rw [← hrace, getVal_setVal_ne _ _ _ (by decide), getVal_setVal_self, hdb]
      have hgo : getValD r1 "pct_other_race" =
          some (1 - (w / tot + b / tot)) := by
        apply getValD_of_getVal
        rw [← hrace, getVal_setVal_self, hdw, hdb]
        rfl
      rw [hsel2]
      simp only [List.map_cons, List.map_nil]
      rw [rowRaceSum_sel, hgw, hgb, hgo]
      simp only [vadd, Option.some.injEq]
      ring

/-- Witness for C5: on a row with counts 600 + 500 over a total of 1000 the
complement construction gives a negative `pct_other_race`, and the three
percentages still sum to exactly 1. -/
theorem claim_C5_witness :
    ∃ t1 sel, get_race_info raceT5 = Except.ok (t1, sel) ∧
      ∀ out ∈ sel, rowRaceSum out = some 1 := by
  obtain ⟨p, hp⟩ :=
    exIsOk_ok (show exIsOk (get_race_info raceT5) = true by decide)
  refine ⟨p.1, p.2, hp, claim_C5_amended raceT5 p.1 p.2 hp ?_⟩
  intro r hr
  have hr2 : r = [("GEOID", some 9), ("White alone_race", some 600),
      ("Black or African American alone_race", some 500),
      ("Total_race", some 1000)] := by
    simpa [raceT5] using hr
  subst hr2
  exact ⟨600, 500, 1000, some 9, by decide, by decide, by decide, by decide,
    by decide⟩

end RatEval3

theorem raceRow_inv {r r1 : Row} (h : raceRow r = Except.ok r1) :
    ∃ w b tot, getVal r "White alone_race" = Except.ok w ∧
      getVal r "Black or African American alone_race" = Except.ok b ∧
      getVal r "Total_race" = Except.ok tot ∧
      r1 = setVal (setVal (setVal r "pct_white" (vdiv w tot)) "pct_black"
          (vdiv b tot)) "pct_other_race"
        (vsub (some 1) (vadd (vdiv w tot) (vdiv b tot))) := by
  unfold raceRow at h
  cases hw : getVal r "White alone_race" with
  | error e => rw [hw, errBind] at h; cases h
  | ok w =>
    rw [hw, okBind] at h
    cases ht : getVal r "Total_race" with
    | error e => rw [ht, errBind] at h; cases h
    | ok tot =>
      rw [ht, okBind] at h
      simp only [] at h
      rw [getVal_setVal_ne _ _ _ (by decide)] at h
      cases hb : getVal r "Black or African American alone_race" with
      | error e => rw [hb, errBind] at h; cases h
      | ok b =>
        rw [hb, okBind] at h
        rw [getVal_setVal_ne _ _ _ (by decide), ht, okBind] at h
        rw [getVal_setVal_ne _ _ _ (by decide), getVal_setVal_self, okBind] at h
        rw [getVal_setVal_self, okBind, pureOk] at h
        injection h with h
        exact ⟨w, b, tot, rfl, rfl, rfl, h.symm⟩

theorem map_fst_setVal_fresh (r : Row) (c : String) (v : Val)
    (h : c ∉ r.map Prod.fst) :
    (setVal r c v).map Prod.fst = r.map Prod.fst ++ [c] := by
  rw [setVal_fresh c v r h, List.map_append]
  rfl

section RatEval4

attribute [local semireducible] Rat.add Rat.sub Rat.mul Rat.inv

/-- Claim C8 (refuting purity): `get_race_info` does not leave the caller's
table unchanged — on a concrete race table the final state of the input
carries three new columns. -/
theorem claim_C8_counterexample :
    Except.map Prod.fst (get_race_info raceT8) ≠ Except.ok raceT8
    ∧ Except.map Prod.fst (get_race_info raceT8) = Except.ok
        [[("GEOID", some 7), ("White alone_race", some 2),
          ("Black or African American alone_race", some 1),
          ("Total_race", some 4), ("pct_white", some (1/2)),
          ("pct_black", some (1/4)), ("pct_other_race", some (1/4))]] := by
  constructor
  · decide
  · decide

/-- Claim C8 as amended: each cleaner's returned view is restricted to
GEOID plus the derived columns, but `get_race_info` and `get_info_pop`
mutate the caller's table by appending their derived columns to every row
(the pre-existing cells are untouched); the subsetting-only cleaners such
as `get_employment_info` do leave the input unchanged. -/
theorem claim_C8_amended :
    (∀ (t t1 sel : Table), get_race_info t = Except.ok (t1, sel) →
      (∀ r ∈ t, "pct_white" ∉ r.map Prod.fst ∧ "pct_black" ∉ r.map Prod.fst ∧
        "pct_other_race" ∉ r.map Prod.fst) →
      (t1.length = t.length ∧
        ∀ i (h1 : i < t.length) (h2 : i < t1.length), ∃ vw vb vo,
          t1.get ⟨i, h2⟩ = t.get ⟨i, h1⟩ ++
            [("pct_white", vw), ("pct_black", vb), ("pct_other_race", vo)]) ∧
      (∀ out ∈ sel,
        out.map Prod.fst = ["GEOID", "pct_white", "pct_black", "pct_other_race"]))
    ∧ (∀ (r r2 : Row), popAddTotal r = Except.ok r2 →
        "total_pop" ∉ r.map Prod.fst → ∃ v,
          getVal r "Total_population" = Except.ok v ∧
          r2 = r ++ [("total_pop", v)])
    ∧ (∀ (t t1 sel : Table), get_employment_info t = Except.ok (t1, sel) →
        t1 = t) := by
  refine ⟨?_, ?_, ?_⟩
  · intro t t1 sel h hfresh
    unfold get_race_info at h
    cases ht1 : mapME raceRow t with
    | error e => rw [ht1, errBind] at h; cases h
    | ok t1x =>
      rw [ht1, okBind] at h
      cases hsel : mapME
          (fun r => selectCols r
            ["GEOID", "pct_white", "pct_black", "pct_other_race"]) t1x with
      | error e => rw [hsel, errBind] at h; cases h
      | ok selx =>
        rw [hsel, okBind, pureOk] at h
        injection h with h
        injection h with h1 h2
        subst h1
        subst h2
        constructor
        · refine ⟨mapME_ok_length ht1, ?_⟩
          intro i hi1 hi2
          have hrr := mapME_ok_get ht1 i hi1 hi2
          obtain ⟨w, b, tot, hw, hb, htot, heq⟩ := raceRow_inv hrr
          obtain ⟨hf1, hf2, hf3⟩ := hfresh (t.get ⟨i, hi1⟩) (t.get_mem i hi1)
          refine ⟨vdiv w tot, vdiv b tot,
            vsub (some 1) (vadd (vdiv w tot) (vdiv b tot)), ?_⟩
          have e1 := setVal_fresh "pct_white" (vdiv w tot) _ hf1
          have e2 := setVal_fresh "pct_black" (vdiv b tot)
            (List.get t ⟨i, hi1⟩ ++ [("pct_white", vdiv w tot)]) (by
              rw [List.map_append]
              simp only [List.mem_append, List.map_cons, List.map_nil,
                List.mem_singleton]
              rintro (hc | hc)
              · exact hf2 hc
              · exact absurd hc (by decide))
          have e3 := setVal_fresh "pct_other_race"
            (vsub (some 1) (vadd (vdiv w tot) (vdiv b tot)))
            ((List.get t ⟨i, hi1⟩ ++ [("pct_white", vdiv w tot)]) ++
              [("pct_black", vdiv b tot)]) (by
              rw [List.map_append, List.map_append]
              simp only [List.mem_append, List.map_cons, List.map_nil,
                List.mem_singleton]
              rintro ((hc | hc) | hc)
              · exact hf3 hc
              · exact absurd hc (by decide)
              · exact absurd hc (by decide))
          rw [heq, e1, e2, e3]
          simp [List.append_assoc]
        · intro out hout
          obtain ⟨r1, hr1, hselr⟩ := mapME_ok_mem hsel out hout
          rw [selectCols_ok hselr]
          simp
  · intro r r2 h hfresh
    unfold popAddTotal at h
    cases hv : getVal r "Total_population" with
    | error e => rw [hv, errBind] at h; cases h
    | ok v =>
      rw [hv, okBind, pureOk] at h
      injection h with h
      exact ⟨v, rfl, by rw [← h, setVal_fresh _ _ _ hfresh]⟩
  · intro t t1 sel h
    unfold get_employment_info at h
    cases hsel : mapME (fun r => selectCols r ["GEOID", "Total_employment"]) t with
    | error e => rw [hsel, errBind] at h; cases h
    | ok selx =>
      rw [hsel, okBind, pureOk] at h
      injection h with h
      injection h with h1 h2
      exact h1.symm

/-- Witness for C8: applied to the concrete race table, every view row is
restricted to GEOID plus the three race-percentage columns. -/
theorem claim_C8_witness :
    ∃ t1 sel, get_race_info raceT8 = Except.ok (t1, sel) ∧
      ∀ out ∈ sel,
        out.map Prod.fst =
          ["GEOID", "pct_white", "pct_black", "pct_other_race"] := by
  obtain ⟨p, hp⟩ :=
    exIsOk_ok (show exIsOk (get_race_info raceT8) = true by decide)
  exact ⟨p.1, p.2, hp,
    (claim_C8_amended.1 raceT8 p.1 p.2 hp (by decide)).2⟩

end RatEval4

section RatEval5

attribute [local semireducible] Rat.add Rat.sub Rat.mul Rat.inv

/-- Claim C9: a zero-valued denominator never raises: `find_per_pop`
succeeds on any table whose two columns exist, each row's new column holds
`vdiv` of its cells, and `vdiv` sends a zero denominator to the undefined
value while a nonzero denominator divides normally; the same holds for the
`pct_working_age` derivation of `get_info_pop`. -/
theorem claim_C9 :
    (∀ (t : Table) (c1 c2 nc : String),
        (∀ r ∈ t, exIsOk (getVal r c1) = true ∧ exIsOk (getVal r c2) = true) →
          ∃ t2, find_per_pop t c1 c2 nc = Except.ok t2)
    ∧ (∀ (r : Row) (c1 c2 nc : String) (v1 v2 : Val), nc ≠ c1 →
        getVal r c1 = Except.ok v1 → getVal r c2 = Except.ok v2 →
          perPopRow c1 c2 nc r =
            Except.ok (dropColumn (setVal r nc (vdiv v1 v2)) c1)
          ∧ getVal (dropColumn (setVal r nc (vdiv v1 v2)) c1) nc =
              Except.ok (vdiv v1 v2))
    ∧ (∀ q : ℚ, vdiv (some q) (some 0) = none)
    ∧ (∀ q d : ℚ, d ≠ 0 → vdiv (some q) (some d) = some (q / d))
    ∧ (∀ (cols : List String) (sel : Finset String) (r : Row) (s v : Val),
        sumSel r cols sel = Except.ok s →
        getVal r "total_pop" = Except.ok v →
          popAddPct cols sel r = Except.ok
            (setVal (setVal r "total_working_age" s) "pct_working_age"
              (vdiv s v))
          ∧ getVal
              (setVal (setVal r "total_working_age" s) "pct_working_age"
                (vdiv s v)) "pct_working_age" = Except.ok (vdiv s v)) := by
  refine ⟨?_, ?_, ?_, ?_, ?_⟩
  · intro t c1 c2 nc h
    apply mapME_ok_of_forall
    intro r hr
    obtain ⟨v1, hv1⟩ := exIsOk_ok (h r hr).1
    obtain ⟨v2, hv2⟩ := exIsOk_ok (h r hr).2
    refine ⟨dropColumn (setVal r nc (vdiv v1 v2)) c1, ?_⟩
    unfold perPopRow
    rw [hv1, okBind, hv2, okBind, pureOk]
  · intro r c1 c2 nc v1 v2 hne h1 h2
    constructor
    · unfold perPopRow
      rw [h1, okBind, h2, okBind, pureOk]
    · rw [getVal_dropColumn_ne _ _ hne, getVal_setVal_self]
  · intro q
    simp [vdiv]
  · intro q d hd
    simp only [vdiv]
    rw [if_neg hd]
  · intro cols sel r s v hs hv
    constructor
    · unfold popAddPct
      rw [hs, okBind]
      simp only []
      rw [getVal_setVal_self, okBind,
        getVal_setVal_ne _ _ _ (by decide), hv, okBind, pureOk]
    · exact getVal_setVal_self _ _ _

/-- Witness for C9: dividing the count column 3 by the zero-valued
denominator column raises no error and stores the undefined value. -/
theorem claim_C9_witness :
    (perPopRow "cnt" "den" "frac" [("cnt", some 3), ("den", some 0)] =
      Except.ok
        (dropColumn
          (setVal [("cnt", some 3), ("den", some 0)] "frac"
            (vdiv (some 3) (some 0))) "cnt"))
    ∧ vdiv (some 3) (some 0) = none :=
  ⟨(claim_C9.2.1 [("cnt", some 3), ("den", some 0)] "cnt" "den" "frac"
      (some 3) (some 0) (by decide) (by decide) (by decide)).1,
   claim_C9.2.2.1 3⟩

end RatEval5
